import Mathlib

/-!
Verification of the token-weighting pipeline of the holyshiftwordcloud
repository (`wordcloud_core.py`), as a shallow embedding in Lean 4.

Conventions used throughout:
* Python `str` is modelled as Lean `String`, with all character-level
  operations performed on `String.data : List Char` so that every
  definition evaluates by kernel reduction.  The corpus handled by the
  program is ASCII, so the ASCII semantics of `Char.isAlpha`,
  `Char.isDigit`, `Char.toLower`, ... coincide with Python's behaviour
  on the inputs of interest.
* Python `float` quantities (boost multipliers, manual adjustments) are
  modelled exactly as rationals `ℚ`; `round` is Python's
  round-half-to-even, modelled by `roundHalfEven`.
* Python dictionaries / `collections.Counter` are modelled as
  association lists that preserve insertion order (`cAdd` updates in
  place or appends, exactly like CPython dicts).
* Code that can raise a Python exception is modelled with `PyRes`.
-/

/-- Result of running a piece of Python code that may raise: either a
normal return value or an (unspecified) exception. -/
inductive PyRes (α : Type) where
  | ok : α → PyRes α
  | err : PyRes α
deriving DecidableEq

/-- Python whitespace for `\s`, `str.split()` and `str.strip()`:
space, tab, newline, carriage return, vertical tab, form feed. -/
def pyIsSpace (c : Char) : Bool :=
  c = ' ' || c = '\t' || c = '\n' || c = '\r' || c = Char.ofNat 11 || c = Char.ofNat 12

/-- Python regex word character `\w` (ASCII fragment): letter, digit or underscore. -/
def pyWordChar (c : Char) : Bool :=
  c.isAlpha || c.isDigit || c = '_'

/-- Lowercase a string (Python `str.lower`, ASCII). -/
def strLower (s : String) : String :=
  String.mk (s.data.map Char.toLower)

/-- Helper for `pySplitChars`: accumulate the current chunk (reversed). -/
def splitWsAux : List Char → List Char → List (List Char)
  | [], acc => if acc.isEmpty then [] else [acc.reverse]
  | c :: cs, acc =>
    if pyIsSpace c then
      if acc.isEmpty then splitWsAux cs [] else acc.reverse :: splitWsAux cs []
    else splitWsAux cs (c :: acc)

/-- Split a character list on whitespace runs, discarding empty chunks
(Python `str.split()` with no argument). -/
def pySplitChars (cs : List Char) : List (List Char) :=
  splitWsAux cs []

/-- Python `str.split()` on a `String`. -/
def pySplit (s : String) : List String :=
  (pySplitChars s.data).map String.mk

/-- Strip whitespace from both ends of a character list (Python `str.strip()`). -/
def trimChars (cs : List Char) : List Char :=
  ((cs.dropWhile pyIsSpace).reverse.dropWhile pyIsSpace).reverse

/-- Python `str.strip()` on a `String`. -/
def pyStrip (s : String) : String :=
  String.mk (trimChars s.data)

/-- Python `str.capitalize()`: first character uppercased, the rest lowercased. -/
def pyCapitalize (s : String) : String :=
  match s.data with
  | [] => s
  | c :: cs => String.mk (c.toUpper :: cs.map Char.toLower)

/-- Python `str.isalpha()` (ASCII): nonempty and all letters. -/
def pyIsAlphaStr (s : String) : Bool :=
  !s.data.isEmpty && s.data.all Char.isAlpha

/-- Join a list of strings with a separator (Python `sep.join(...)`). -/
def joinSep (sep : String) : List String → String
  | [] => ""
  | [s] => s
  | s :: rest => s ++ sep ++ joinSep sep rest

/-- The 66 scripture book names of `BOOK_NAMES`, in source order (the order
is significant: it is the order of the regex alternation in `BOOK_PATTERN`). -/
def BOOK_NAMES : List String := [
  "Genesis", "Exodus", "Leviticus", "Numbers", "Deuteronomy", "Joshua", "Judges", "Ruth",
  "1 Samuel", "2 Samuel", "1 Kings", "2 Kings", "1 Chronicles", "2 Chronicles", "Ezra", "Nehemiah",
  "Esther", "Job", "Psalm", "Psalms", "Proverbs", "Ecclesiastes", "Song of Songs", "Isaiah", "Jeremiah",
  "Lamentations", "Ezekiel", "Daniel", "Hosea", "Joel", "Amos", "Obadiah", "Jonah", "Micah", "Nahum",
  "Habakkuk", "Zephaniah", "Haggai", "Zechariah", "Malachi", "Matthew", "Mark", "Luke", "John", "Acts",
  "Romans", "1 Corinthians", "2 Corinthians", "Galatians", "Ephesians", "Philippians", "Colossians",
  "1 Thessalonians", "2 Thessalonians", "1 Timothy", "2 Timothy", "Titus", "Philemon", "Hebrews", "James",
  "1 Peter", "2 Peter", "1 John", "2 John", "3 John", "Jude", "Revelation"]

/-- The trailing `\b` of `REF_REGEX`: satisfied at end of input or when the
next character is not a word character (the previous matched character is
always a digit, hence a word character). -/
def boundaryOkAfter : List Char → Bool
  | [] => true
  | c :: _ => !pyWordChar c

/-- The leading `\b` of `REF_REGEX`: satisfied at the start of the input or
after a non-word character (a book name always starts with a word character). -/
def boundaryBefore : Option Char → Bool
  | none => true
  | some p => !pyWordChar p

/-- Match one literal book name case-insensitively at the head of the input;
returns the consumed input characters (original case) and the rest. -/
def matchBookChars : List Char → List Char → Option (List Char × List Char)
  | [], cs => some ([], cs)
  | _ :: _, [] => none
  | p :: ps, c :: cs =>
    if p.toLower = c.toLower then
      match matchBookChars ps cs with
      | some (m, r) => some (c :: m, r)
      | none => none
    else none

/-- Match the tail `\s+\d+(?::\d+(?:-\d+)?)?\b` of `REF_REGEX` at the head of
the input, with the backtracking of the Python engine resolved: the optional
colon / dash groups are taken greedily, and dropped again when the trailing
`\b` would otherwise fail (dropping a group always puts a `:` or `-`, a
non-word character, after the digits, so the boundary then holds; shrinking a
greedy `\d+` never helps because a digit would directly precede a digit). -/
def matchTail (cs : List Char) : Option (List Char × List Char) :=
  let (sp, r1) := cs.span pyIsSpace
  if sp.isEmpty then none else
  let (d1, r2) := r1.span Char.isDigit
  if d1.isEmpty then none else
  match r2 with
  | ':' :: r3 =>
    let (d2, r4) := r3.span Char.isDigit
    if d2.isEmpty then some (sp ++ d1, r2)
    else
      match r4 with
      | '-' :: r5 =>
        let (d3, r6) := r5.span Char.isDigit
        if !d3.isEmpty && boundaryOkAfter r6 then
          some (sp ++ d1 ++ ':' :: d2 ++ '-' :: d3, r6)
        else some (sp ++ d1 ++ ':' :: d2, r4)
      | _ =>
        if boundaryOkAfter r4 then some (sp ++ d1 ++ ':' :: d2, r4)
        else some (sp ++ d1, r2)
  | _ => if boundaryOkAfter r2 then some (sp ++ d1, r2) else none

/-- Try the alternation of book names in source order at a fixed position;
on a failing continuation the engine moves to the next alternative. -/
def tryBooks : List String → List Char → Option (List Char × List Char)
  | [], _ => none
  | b :: bs, cs =>
    match matchBookChars b.data cs with
    | some (m, r) =>
      match matchTail r with
      | some (t, r2) => some (m ++ t, r2)
      | none => tryBooks bs cs
    | none => tryBooks bs cs

/-- Scan for all non-overlapping matches of `REF_REGEX` left to right
(Python `finditer`): at each position where the leading `\b` holds, try the
full pattern; after a match, resume right after it.  `fuel` bounds the
number of steps (call with the input length). -/
def scanRefsAux : Nat → Option Char → List Char → List (List Char)
  | 0, _, _ => []
  | _, _, [] => []
  | fuel + 1, prev, c :: cs =>
    if boundaryBefore prev then
      match tryBooks BOOK_NAMES (c :: cs) with
      | some (m, rest) => m :: scanRefsAux fuel m.getLast? rest
      | none => scanRefsAux fuel (some c) cs
    else scanRefsAux fuel (some c) cs

/-- All matches of `REF_REGEX` in a string, in order (Python
`REF_REGEX.finditer`, taking `match.group(0)` of each). -/
def findRefMatches (s : String) : List String :=
  (scanRefsAux s.data.length none s.data).map String.mk

/-- Embeds `is_scripture_ref` (`wordcloud_core.py` line 299): a regex
*search*, true when the string contains a match anywhere. -/
def is_scripture_ref (value : String) : Bool :=
  !(findRefMatches value).isEmpty

/-- Embeds `norm_ref` (`wordcloud_core.py` lines 197-203). -/
def norm_ref (m : String) : String :=
  let parts := pySplit m
  if parts.isEmpty then m
  else
    let book := joinSep " " (parts.dropLast.map (fun p => if pyIsAlphaStr p then pyCapitalize p else p))
    let last := if parts.length > 1 then parts.getLast?.getD "" else ""
    pyStrip (book ++ " " ++ last)

/-- Embeds the reference-detection part of `extract_tokens_and_references`
(`wordcloud_core.py` lines 348-351). -/
def extract_references (detect : Bool) (text : String) : List String :=
  if detect then (findRefMatches text).map norm_ref else []

/-- The `BASE_STOP` stopword group (`wordcloud_core.py` lines 28-33). -/
def BASE_STOP : List String := [
  "a", "about", "above", "after", "again", "against", "all", "am", "an", "and", "any", "are", "as", "at",
  "be", "because", "been", "before", "being", "below", "between", "both", "but", "by", "can", "did", "do",
  "does", "doing", "down", "during", "each", "few", "for", "from", "further", "had", "has", "have",
  "having", "he", "her", "here", "hers", "herself", "him", "himself", "his", "how", "i", "if", "in",
  "into", "is", "it", "its", "itself", "just", "let", "me", "more", "most", "my", "myself", "no", "nor",
  "not", "of", "off", "on", "once", "only", "or", "other", "our", "ours", "ourselves", "out", "over",
  "own", "same", "she", "should", "so", "some", "such", "than", "that", "the", "their", "theirs", "them",
  "themselves", "then", "there", "these", "they", "this", "those", "through", "to", "too", "under",
  "until", "up", "very", "was", "we", "were", "what", "when", "where", "which", "while", "who", "whom",
  "why", "will", "with", "you", "your", "yours", "yourself", "yourselves"]

/-- The `CONTRACTIONS` stopword group (`wordcloud_core.py` lines 35-41). -/
def CONTRACTIONS : List String := [
  "dont", "doesnt", "didnt", "isnt", "arent", "wasnt", "werent",
  "cant", "couldnt", "shouldnt", "wouldnt", "wont",
  "im", "ive", "youre", "weve", "theyre", "its", "thats",
  "ill", "youll", "theyll", "were",
  "ve", "re", "ll", "d", "m", "s"]

/-- The `FILLERS` stopword group (`wordcloud_core.py` lines 43-46). -/
def FILLERS : List String := [
  "really", "quite", "bit", "lot", "maybe", "perhaps", "sort", "kind", "thing", "things", "like",
  "well", "just", "still", "also", "yes", "ok", "okay", "hmm", "wow", "oh", "please", "much", "many",
  "little", "first", "last", "next", "good", "great", "right"]

/-- The `PLATFORM` stopword group (`wordcloud_core.py` lines 48-52). -/
def PLATFORM : List String := [
  "holy", "shift", "journal", "post", "posts", "blog", "entry", "entries", "subscribe", "subscriber",
  "member", "members", "newsletter", "comment", "comments", "signin", "signup", "signed", "feature",
  "featured", "image", "figure", "caption", "thumb", "bookmark", "paywall", "com", "org", "uk", "http",
  "https", "www", "amp", "nbsp", "email", "online"]

/-- The `ADMINISH` stopword group (`wordcloud_core.py` lines 54-58). -/
def ADMINISH : List String := [
  "meeting", "panel", "portfolio", "form", "forms", "draft", "version", "page", "pages", "section",
  "order", "list", "listening", "sent", "received", "phone", "zoom", "room", "team", "advisor",
  "advisory", "process", "course", "week", "weeks", "month", "months", "year", "years", "today",
  "tomorrow", "yesterday", "morning", "evening", "night", "hour", "hours", "time", "times", "context"]

/-- The `PERSONAL` stopword group (`wordcloud_core.py` line 60). -/
def PERSONAL : List String := [
  "margie", "thomas", "andrew", "frank", "janice", "shiftmatt", "matt"]

/-- The `SHORT_FILLERS` stopword group (`wordcloud_core.py` lines 62-65). -/
def SHORT_FILLERS : List String := [
  "us", "one", "two", "say", "says", "said", "may", "might", "must", "yet", "got", "get", "go", "goes",
  "went", "let", "use", "look", "new", "old", "away", "back", "keep", "rather", "already", "probably",
  "though", "instead", "ever", "always"]

/-- The `KEEP_SHORT` allowlist (`wordcloud_core.py` lines 67-70). -/
def KEEP_SHORT : List String := [
  "god", "jesus", "hope", "joy", "love", "amen", "grace", "sin", "law", "faith", "word", "rest",
  "paul", "mark", "john", "luke", "acts", "job", "ruth", "jude", "abba", "yahweh"]

/-- Embeds `STOP_GROUPS` (`wordcloud_core.py` lines 124-132): name to group. -/
def STOP_GROUPS : List (String × List String) := [
  ("base", BASE_STOP), ("contractions", CONTRACTIONS), ("fillers", FILLERS),
  ("platform", PLATFORM), ("admin", ADMINISH), ("personal", PERSONAL), ("short", SHORT_FILLERS)]

/-- Embeds `DEFAULT_STOP_GROUPS` (`wordcloud_core.py` line 134). -/
def DEFAULT_STOP_GROUPS : List String :=
  ["base", "contractions", "fillers", "platform", "admin", "personal", "short"]

/-- Embeds `WordCloudConfig.stopwords` (`wordcloud_core.py` lines 165-171):
union of the enabled groups, plus the trimmed lowercased nonblank extra
stopwords, minus the trimmed lowercased nonblank removed stopwords.  Sets
are modelled as lists up to membership. -/
def stopwords_of (enabled extra remove : List String) : List String :=
  let fromGroups := enabled.flatMap (fun n => ((STOP_GROUPS.lookup n).getD []))
  let withExtra := fromGroups ++ (extra.filter (fun w => !(pyStrip w).isEmpty)).map (fun w => strLower (pyStrip w))
  let removals := (remove.filter (fun w => !(pyStrip w).isEmpty)).map (fun w => strLower (pyStrip w))
  withExtra.filter (fun w => !removals.contains w)

/-- Embeds `WordCloudConfig.keep_short` (`wordcloud_core.py` lines 173-176). -/
def keep_short_of (extra : List String) : List String :=
  KEEP_SHORT ++ (extra.filter (fun w => !(pyStrip w).isEmpty)).map (fun w => strLower (pyStrip w))

/-- The default effective stopword set: all groups enabled, no extras and
no removals (the `WordCloudConfig` defaults). -/
def default_stopwords : List String :=
  stopwords_of DEFAULT_STOP_GROUPS [] []

/-- Characters removed by the markup-punctuation substitution
`re.sub(r"[_*`~^<>|\\]", " ", text)` (the second character is a backtick,
written by code point). -/
def markupChars : List Char :=
  ['_', '*', Char.ofNat 96, '~', Char.ofNat 94, '<', '>', '|', Char.ofNat 92]

/-- One step of the URL substitution: try to match
`https?://\S+|www\.\S+` at the head of the input, returning the rest of
the input after the match.  The greedy `\S+` never has to give characters
back because nothing follows it in the pattern. -/
def matchUrl (cs : List Char) : Option (List Char) :=
  match cs with
  | 'h' :: 't' :: 't' :: 'p' :: rest =>
    let afterScheme :=
      match rest with
      | 's' :: ':' :: '/' :: '/' :: r => some r
      | ':' :: '/' :: '/' :: r => some r
      | _ => none
    match afterScheme with
    | some r =>
      let (body, r2) := r.span (fun c => !pyIsSpace c)
      if body.isEmpty then none else some r2
    | none => none
  | 'w' :: 'w' :: 'w' :: '.' :: r =>
    let (body, r2) := r.span (fun c => !pyIsSpace c)
    if body.isEmpty then none else some r2
  | _ => none

/-- Left-to-right scan of `re.sub(r"https?://\S+|www\.\S+", " ", text)`:
each non-overlapping match is replaced by a single space. -/
def urlSubAux : Nat → List Char → List Char
  | 0, _ => []
  | _, [] => []
  | fuel + 1, c :: cs =>
    match matchUrl (c :: cs) with
    | some rest => ' ' :: urlSubAux fuel rest
    | none => c :: urlSubAux fuel cs

/-- One step of the markdown-link substitution: try to match
`\[[^\]]*\]\([^)]+\)` at the head of the input. -/
def matchMdLink (cs : List Char) : Option (List Char) :=
  match cs with
  | '[' :: r =>
    let (_, r2) := r.span (fun c => c ≠ ']')
    match r2 with
    | ']' :: '(' :: r3 =>
      let (body, r4) := r3.span (fun c => c ≠ ')')
      if body.isEmpty then none else
      match r4 with
      | ')' :: r5 => some r5
      | _ => none
    | _ => none
  | _ => none

/-- Left-to-right scan of `re.sub(r"\[[^\]]*\]\([^)]+\)", " ", text)`. -/
def mdLinkSubAux : Nat → List Char → List Char
  | 0, _ => []
  | _, [] => []
  | fuel + 1, c :: cs =>
    match matchMdLink (c :: cs) with
    | some rest => ' ' :: mdLinkSubAux fuel rest
    | none => c :: mdLinkSubAux fuel cs

/-- The character-class substitution `re.sub(r"[^a-z0-9\s\'-]", " ", text)`:
every character that is not a lowercase letter, digit, whitespace,
apostrophe or hyphen becomes a space. -/
def charFilter (cs : List Char) : List Char :=
  cs.map (fun c =>
    if c.isLower || c.isDigit || pyIsSpace c || c = Char.ofNat 39 || c = '-' then c else ' ')

/-- Insert a space between every adjacent pair of characters satisfying the
two-character pattern `p`; this is extensionally `re.sub(r"(X)(Y)", r"\1 \2", s)`
for character classes `X`, `Y` (matches cannot overlap because in each of
the three patterns of `split_weird_token` the classes are disjoint). -/
def insertBoundary (p : Char → Char → Bool) : List Char → List Char
  | [] => []
  | [c] => [c]
  | c1 :: c2 :: rest =>
    if p c1 c2 then c1 :: ' ' :: insertBoundary p (c2 :: rest)
    else c1 :: insertBoundary p (c2 :: rest)

/-- Embeds `split_weird_token` (`wordcloud_core.py` lines 206-210): the three
boundary substitutions (lower→upper, letter→digit, digit→letter) followed by
a whitespace split. -/
def split_weird_token (cs : List Char) : List (List Char) :=
  let a1 := insertBoundary (fun c1 c2 => c1.isLower && c2.isUpper) cs
  let a2 := insertBoundary (fun c1 c2 => c1.isLower && c2.isDigit) a1
  let a3 := insertBoundary (fun c1 c2 => c1.isDigit && c2.isLower) a2
  pySplitChars a3

/-- Characters stripped from both token ends by `token.strip("-'")`. -/
def stripSetChar (c : Char) : Bool :=
  c = '-' || c = Char.ofNat 39

/-- Python `token.strip("-'")`. -/
def stripEnds (cs : List Char) : List Char :=
  ((cs.dropWhile stripSetChar).reverse.dropWhile stripSetChar).reverse

/-- Continuation of `wordPattern` after the first letter: more letters,
then an optional apostrophe followed by letters only. -/
def wordPatAfter : List Char → Bool
  | [] => true
  | c :: rest =>
    if c.isLower then wordPatAfter rest
    else c = Char.ofNat 39 && rest.all Char.isLower

/-- Full match of `[a-z]+'?[a-z]*`: one or more lowercase letters, an
optional apostrophe, then zero or more lowercase letters. -/
def wordPattern (cs : List Char) : Bool :=
  match cs with
  | [] => false
  | c :: rest => c.isLower && wordPatAfter rest

/-- The per-candidate cleaning of the `cleaned` loop of `tokenize_text`
(`wordcloud_core.py` lines 225-236): strip `-`/`'` from the ends, then drop
empties, stopwords, pattern failures and short tokens outside the allowlist. -/
def cleanToken (stop keep : List String) (minLength : Nat) (cs : List Char) : Option String :=
  let t := stripEnds cs
  if t.isEmpty then none
  else if stop.contains (String.mk t) then none
  else if !wordPattern t then none
  else if t.length < minLength && !keep.contains (String.mk t) then none
  else some (String.mk t)

/-- Embeds `tokenize_text` (`wordcloud_core.py` lines 213-237): lowercase,
strip URLs, markup punctuation and markdown links, restrict to
`[a-z0-9\s'-]`, split on whitespace (the `\s+`-collapse plus `strip` plus
`split()` of the source is one whitespace split), split each chunk at
letter/digit boundaries, then clean each candidate. -/
def tokenize_text (body : String) (stop keep : List String) (minLength : Nat) : List String :=
  let t1 := body.data.map Char.toLower
  let t2 := urlSubAux t1.length t1
  let t3 := t2.map (fun c => if markupChars.contains c then ' ' else c)
  let t4 := mdLinkSubAux t3.length t3
  let t5 := charFilter t4
  let chunks := pySplitChars t5
  let rawTokens := chunks.flatMap split_weird_token
  rawTokens.filterMap (cleanToken stop keep minLength)

/-- A Python dict / `collections.Counter` with string keys and integer
values, as an insertion-ordered association list. -/
abbrev Counter := List (String × ℤ)

/-- Counter read with default 0 (`counts.get(key, 0)`, or `counts[key]`
on a `Counter` for a missing key). -/
def cGet : Counter → String → ℤ
  | [], _ => 0
  | (k', v) :: m, k => if k' = k then v else cGet m k

/-- Whether a key is present in the dict. -/
def cHasKey : Counter → String → Bool
  | [], _ => false
  | (k', _) :: m, k => k' = k || cHasKey m k

/-- The keys of the dict, in insertion order. -/
def cKeys (m : Counter) : List String :=
  m.map Prod.fst

/-- Counter update `counts[k] = counts.get(k, 0) + v`: updates the entry in
place when the key exists, appends a new entry otherwise (CPython dict
semantics). -/
def cAdd : Counter → String → ℤ → Counter
  | [], k, v => [(k, v)]
  | (k', v') :: m, k, v =>
    if k' = k then (k', v' + v) :: m else (k', v') :: cAdd m k v

/-- Occurrence count of a string in a list (`collections.Counter` /
`list.count`). -/
def scount (k : String) : List String → ℕ
  | [] => 0
  | x :: xs => (if x = k then 1 else 0) + scount k xs

/-- Lookup in a float-valued mapping (boost map, manual adjustments),
modelled with exact rationals. -/
def qlookup : List (String × ℚ) → String → Option ℚ
  | [], _ => none
  | (k', v) :: m, k => if k' = k then some v else qlookup m k

/-- Python `round`: round to the nearest integer, ties to the even
integer (the semantics of `round` on the exact value). -/
def roundHalfEven (q : ℚ) : ℤ :=
  let f := ⌊q⌋
  let r := q - f
  if r < 1 / 2 then f
  else if 1 / 2 < r then f + 1
  else if f % 2 = 0 then f else f + 1

/-- Step 1 of `compute_word_weights` (`wordcloud_core.py` line 248):
`base_counts = collections.Counter(tokens)`. -/
def base_counts (tokens : List String) : Counter :=
  tokens.foldl (fun m t => cAdd m t 1) []

/-- Step 3 of `compute_word_weights` (lines 251-254): for each reference
occurrence, add `reference_weight` to that reference's running count. -/
def add_references (rw : ℤ) (refs : List String) (m : Counter) : Counter :=
  refs.foldl (fun m r => cAdd m r rw) m

/-- The adjacent-token bigram phrases `f"{left} {right}"` of
`zip(tokens, tokens[1:])` (lines 256-258), in order. -/
def bigram_phrases (tokens : List String) : List String :=
  (tokens.zip tokens.tail).map (fun p => p.1 ++ " " ++ p.2)

/-- Step 4 of `compute_word_weights` (lines 256-261): each bigram phrase
that is a key of the boost map adds 1 to that phrase's running count. -/
def add_bigrams (bm : List (String × ℚ)) (tokens : List String) (m : Counter) : Counter :=
  (bigram_phrases tokens).foldl
    (fun m ph => if (qlookup bm ph).isSome then cAdd m ph 1 else m) m

/-- The running counts just before the per-key loop of
`compute_word_weights`: `final_counts = dict(counts)` (line 264) after base
counts, reference bonuses and bigram increments. -/
def pre_counts (tokens refs : List String) (bm : List (String × ℚ)) (rw : ℤ) : Counter :=
  add_bigrams bm tokens (add_references rw refs (base_counts tokens))

/-- The iterated key set `all_keys = set(final_counts) | set(manual)` of
line 267, as a list up to membership. -/
def all_keys (tokens refs : List String) (bm : List (String × ℚ)) (rw : ℤ)
    (manual : List (String × ℚ)) : List String :=
  cKeys (pre_counts tokens refs bm rw) ++ manual.map Prod.fst

/-- The boost application of lines 274-277: look the multiplier up by the
lowercased key with default 1.0; when it is not 1.0 multiply the running
count by it and round. -/
def boostStep (bm : List (String × ℚ)) (k : String) (current : ℤ) : ℤ :=
  let mult := (qlookup bm (strLower k)).getD 1
  if mult ≠ 1 then roundHalfEven ((current : ℚ) * mult) else current

/-- The manual adjustment the per-key loop uses for key `k` (lines 279-281):
`manual_adjustments.get(key, manual_adjustments.get(key.lower(), 0.0))`. -/
def manualLookup (manual : List (String × ℚ)) (k : String) : ℚ :=
  (qlookup manual k).getD ((qlookup manual (strLower k)).getD 0)

/-- The manual-adjustment application of lines 279-283: when the adjustment
is nonzero (Python float truthiness), add it, round, and floor at zero. -/
def manualStep (manual : List (String × ℚ)) (k : String) (current : ℤ) : ℤ :=
  let adj := manualLookup manual k
  if adj ≠ 0 then max 0 (roundHalfEven ((current : ℤ) + adj)) else current

/-- The final count of a key as produced by `compute_word_weights`
(lines 269-296): running count, then boost, then manual adjustment.  The
loop body treats keys independently, so the returned `final_counts` and
`stats[key].final_count` are this value for every key of `all_keys`. -/
def final_count (tokens refs : List String) (bm : List (String × ℚ)) (rw : ℤ)
    (manual : List (String × ℚ)) (k : String) : ℤ :=
  manualStep manual k (boostStep bm k (cGet (pre_counts tokens refs bm rw) k))

/-- DFA scanner for the whole-string regex `[A-Za-z]+(?: [A-Za-z]+)*`: the
Bool state is true when at least one letter of the current word has been
seen, false when the scanner expects the first letter of a (new) word. -/
def lettersSpacesScan : Bool → List Char → Bool
  | inWord, [] => inWord
  | true, c :: cs =>
    if c.isAlpha then lettersSpacesScan true cs
    else if c = ' ' then lettersSpacesScan false cs
    else false
  | false, c :: cs => c.isAlpha && lettersSpacesScan true cs

/-- Whole-string match of `re.fullmatch(r"[A-Za-z]+(?: [A-Za-z]+)*", key)`
(`wordcloud_core.py` line 317): one or more all-letter words separated by
single interior spaces. -/
def lettersSpaces (s : String) : Bool :=
  lettersSpacesScan false s.data

/-- The step-1 filter predicate of `normalize_items` (lines 314-318): keep a
key when `is_scripture_ref` (a substring search) succeeds or the whole key is
letters and single spaces. -/
def normKeep (key : String) : Bool :=
  is_scripture_ref key || lettersSpaces key

/-- The step-1 filter of `normalize_items`: restrict the items to the kept
keys, preserving order. -/
def filteredItems (items : List (String × ℤ)) : List (String × ℤ) :=
  items.filter (fun kv => normKeep kv.1)

/-- Stable insertion into a list sorted by weight descending: the new
element goes before the first strictly-smaller weight and after all
earlier-inserted elements of equal or larger weight. -/
def insertDesc (x : String × ℤ) : List (String × ℤ) → List (String × ℤ)
  | [] => [x]
  | y :: ys => if y.2 ≤ x.2 then x :: y :: ys else y :: insertDesc x ys

/-- Stable sort by weight descending, modelling
`sorted(filtered.items(), key=lambda pair: pair[1], reverse=True)` (line 320):
Python's sort is stable and `reverse=True` reverses the comparison, not the
output, so ties keep their original order. -/
def sortDesc : List (String × ℤ) → List (String × ℤ)
  | [] => []
  | x :: xs => insertDesc x (sortDesc xs)

/-- Breakpoint scan used by `weight_for`: return the label of the first
breakpoint whose threshold exceeds the fraction, default "500". -/
def weightScan (fraction : ℚ) : List (ℚ × String) → String
  | [] => "500"
  | (threshold, w) :: rest =>
    if fraction < threshold then w else weightScan fraction rest

/-- Embeds `weight_for` (`wordcloud_core.py` lines 303-310): scan the
ordered breakpoints and return the first label whose threshold exceeds the
rank fraction, with fallbacks "600" (singleton output) and "500".  The
float thresholds are modelled as exact rationals. -/
def weight_for (rank total : ℕ) (breaks : List (ℚ × String)) : String :=
  if total ≤ 1 then "600"
  else weightScan ((rank : ℚ) / (max (total - 1) 1 : ℕ)) breaks

/-- Embeds `DEFAULT_WEIGHT_BREAKS` (`wordcloud_core.py` lines 136-141). -/
def DEFAULT_WEIGHT_BREAKS : List (ℚ × String) :=
  [(4 / 100, "900"), (12 / 100, "800"), (30 / 100, "700"), (60 / 100, "600")]

/-- Truncation toward zero, the semantics of numpy `.astype(int)` on the
(real-valued) size curve. -/
noncomputable def truncToZero (x : ℝ) : ℤ :=
  if x < 0 then ⌈x⌉ else ⌊x⌋

/-- The size curve of `normalize_items` (lines 323-325):
`min_font + (max_font - min_font) * (1 - (i / max(total-1, 1)) ** curve_power)`
truncated toward zero, in exact real arithmetic (`**` is real
exponentiation). -/
noncomputable def sizeAt (minFont maxFont : ℤ) (curvePower : ℝ) (total i : ℕ) : ℤ :=
  truncToZero ((minFont : ℝ) +
    ((maxFont : ℝ) - (minFont : ℝ)) * (1 - ((i : ℝ) / (max (total - 1) 1 : ℕ)) ^ curvePower))

/-- One output record of `normalize_items`: `{"text": ..., "size": ...,
"weight": ...}`. -/
structure RenderWord where
  text : String
  size : ℤ
  weight : String

/-- Embeds `normalize_items` (`wordcloud_core.py` lines 313-334): filter the
weighted items, sort stably by weight descending, truncate to `max_items`,
and map each rank to its font size and weight label. -/
noncomputable def normalize_items (items : List (String × ℤ)) (maxItems : ℕ)
    (minFont maxFont : ℤ) (curvePower : ℝ) (breaks : List (ℚ × String)) : List RenderWord :=
  let sortedItems := (sortDesc (filteredItems items)).take maxItems
  let total := sortedItems.length
  sortedItems.enum.map (fun iw =>
    { text := iw.2.1, size := sizeAt minFont maxFont curvePower total iw.1,
      weight := weight_for iw.1 total breaks })

/- A parsed JSON value: `Json` below.  `JList`/`JObj` are spelled-out lists
so that all recursions over nested values are structural (mapping entries
keep their insertion order, like Python dicts produced by `json.load`).
Numbers are modelled as integers (their exact value is irrelevant to
extraction: only strings are collected). -/
mutual
inductive Json where
  | str : String → Json
  | num : Int → Json
  | bool : Bool → Json
  | null : Json
  | arr : JList → Json
  | obj : JObj → Json
inductive JList where
  | nil : JList
  | cons : Json → JList → JList
inductive JObj where
  | nil : JObj
  | cons : String → Json → JObj → JObj
end

/- The mutual block below embeds `_iter_json_strings` (`wordcloud_core.py`
lines 439-454): yield a string leaf when collecting all, or included via an
ancestor key, or when no keys are configured; descend into mappings updating
the include flag by the lowercased key, and into sequences unchanged. -/
mutual
def iterJson (keys : List String) (collectAll : Bool) : Json → Bool → List String
  | .str s, inc => if collectAll || inc || keys.isEmpty then [s] else []
  | .obj fields, inc => iterJsonObj keys collectAll fields inc
  | .arr elems, inc => iterJsonList keys collectAll elems inc
  | .num _, _ => []
  | .bool _, _ => []
  | .null, _ => []
def iterJsonObj (keys : List String) (collectAll : Bool) : JObj → Bool → List String
  | .nil, _ => []
  | .cons k v rest, inc =>
    iterJson keys collectAll v (collectAll || keys.contains (strLower k) || inc)
      ++ iterJsonObj keys collectAll rest inc
def iterJsonList (keys : List String) (collectAll : Bool) : JList → Bool → List String
  | .nil, _ => []
  | .cons v rest, inc =>
    iterJson keys collectAll v inc ++ iterJsonList keys collectAll rest inc
end

/-- Key lookup in a JSON mapping (first occurrence, Python `dict` access). -/
def lookupJO : JObj → String → Option Json
  | .nil, _ => none
  | .cons k v rest, key => if k = key then some v else lookupJO rest key

/-- Python `value.get(key, default)`: only mappings have `.get`; on any
other value the attribute access raises. -/
def pyGet (j : Json) (key : String) (dflt : Json) : PyRes Json :=
  match j with
  | .obj fields => .ok ((lookupJO fields key).getD dflt)
  | _ => .err

/-- Python `value[0]`: the head of a nonempty list, the first character of
a nonempty string; everything else (empty list, mapping with string keys,
number, ...) raises. -/
def pyIndex0 : Json → PyRes Json
  | .arr (.cons v _) => .ok v
  | .str s =>
    match s.data with
    | c :: _ => .ok (.str (String.mk [c]))
    | [] => .err
  | _ => .err

/-- Embeds `extract_posts` (`wordcloud_core.py` lines 341-342):
`payload.get("db", [{}])[0].get("data", {}).get("posts", [])`. -/
def extract_posts (payload : Json) : PyRes Json :=
  match pyGet payload "db" (.arr (.cons (.obj .nil) .nil)) with
  | .err => .err
  | .ok db =>
    match pyIndex0 db with
    | .err => .err
    | .ok first =>
      match pyGet first "data" (.obj .nil) with
      | .err => .err
      | .ok data => pyGet data "posts" (.arr .nil)

/-- Per-element part of the fallback comprehension: `post.get("plaintext", "")`
for each element of a list of posts. -/
def postsPlaintextsList : JList → PyRes (List Json)
  | .nil => .ok []
  | .cons p rest =>
    match pyGet p "plaintext" (.str "") with
    | .err => .err
    | .ok v =>
      match postsPlaintextsList rest with
      | .err => .err
      | .ok vs => .ok (v :: vs)

/-- The fallback list comprehension
`[post.get("plaintext", "") for post in extract_posts(payload)]`
(lines 462-464): iterating a list visits its elements; iterating a nonempty
mapping yields key strings (whose `.get` then raises); iterating a nonempty
string yields characters (same); iterating anything else raises. -/
def postsPlaintexts : Json → PyRes (List Json)
  | .arr elems => postsPlaintextsList elems
  | .obj .nil => .ok []
  | .obj (.cons _ _ _) => .err
  | .str s => if s.data.isEmpty then .ok [] else .err
  | _ => .err

/-- Python truthiness of a JSON value (the `if s` of the join). -/
def jsonTruthy : Json → Bool
  | .str s => !s.data.isEmpty
  | .num n => n ≠ 0
  | .bool b => b
  | .null => false
  | .arr (.cons _ _) => true
  | .arr .nil => false
  | .obj (.cons _ _ _) => true
  | .obj .nil => false

/-- Coerce joined items to strings: `str.join` raises on a non-string. -/
def asStrs : List Json → PyRes (List String)
  | [] => .ok []
  | .str s :: rest =>
    match asStrs rest with
    | .err => .err
    | .ok ss => .ok (s :: ss)
  | _ :: _ => .err

/-- Python `" \n".join(s for s in items if s)` over arbitrary values. -/
def pyJoinJson (sep : String) (items : List Json) : PyRes String :=
  match asStrs (items.filter jsonTruthy) with
  | .err => .err
  | .ok ss => .ok (joinSep sep ss)

/-- Embeds `DEFAULT_JSON_KEYS` (`wordcloud_core.py` lines 114-122). -/
def DEFAULT_JSON_KEYS : List String :=
  ["plaintext", "text", "body", "content", "excerpt", "summary", "description"]

/-- Embeds `WordCloudConfig.resolved_json_keys` (lines 178-183): empty when
collecting all strings; else the trimmed lowercased nonblank configured keys
when a nonempty key set is configured (Python truthiness of the set); else
the lowercased default keys. -/
def resolved_json_keys (collectAll : Bool) (jsonTextKeys : Option (List String)) : List String :=
  if collectAll then []
  else
    match jsonTextKeys with
    | some ks =>
      if !ks.isEmpty then
        (ks.filter (fun w => !(pyStrip w).isEmpty)).map (fun w => strLower (pyStrip w))
      else DEFAULT_JSON_KEYS.map strLower
    | none => DEFAULT_JSON_KEYS.map strLower

/-- Embeds `extract_text_from_json_payload` (`wordcloud_core.py` lines
457-465): collect strings by key; when nothing matched, collecting all is
off and "plaintext" is not a resolved key, fall back to the legacy
`db[0].data.posts[*].plaintext` path; join the truthy strings with " \n". -/
def extract_text_from_json_payload (payload : Json) (keys : List String)
    (collectAll : Bool) : PyRes String :=
  let strings := iterJson keys collectAll payload false
  if strings.isEmpty && !collectAll && !keys.contains "plaintext" then
    match payload with
    | .obj fields =>
      match extract_posts (.obj fields) with
      | .err => .err
      | .ok posts =>
        match postsPlaintexts posts with
        | .err => .err
        | .ok vals => pyJoinJson " \n" vals
    | _ => .ok (joinSep " \n" (strings.filter (fun s => !s.data.isEmpty)))
  else .ok (joinSep " \n" (strings.filter (fun s => !s.data.isEmpty)))

/-- The payload `{"db": [{"data": {"posts": [{"plaintext": "hello world"}]}}]}`. -/
def ghostPayload : Json :=
  .obj (.cons "db"
    (.arr (.cons
      (.obj (.cons "data"
        (.obj (.cons "posts"
          (.arr (.cons (.obj (.cons "plaintext" (.str "hello world") .nil)) .nil))
          .nil))
        .nil))
      .nil))
    .nil)

/-- Definition following the SPEC'S WORDS for claim C1 (not the code): the
key "as a whole string is a detected scripture reference", i.e. `REF_REGEX`
matches the entire key.  The code's `is_scripture_ref` is a substring
search instead; this whole-string variant exists only to compare the two. -/
def specWholeStringRef (s : String) : Bool :=
  match tryBooks BOOK_NAMES s.data with
  | some (_, rest) => rest.isEmpty
  | none => false

/-! Helper lemmas. -/

theorem roundHalfEven_intCast (n : ℤ) : roundHalfEven (n : ℚ) = n := by
  unfold roundHalfEven
  norm_num

theorem cGet_cAdd (m : Counter) (k k' : String) (v : ℤ) :
    cGet (cAdd m k v) k' = cGet m k' + (if k = k' then v else 0) := by
  induction m with
  | nil => simp [cAdd, cGet]
  | cons p m ih =>
    obtain ⟨a, b⟩ := p
    by_cases hak : a = k
    · subst hak
      by_cases hkk : a = k'
      · subst hkk
        simp [cAdd, cGet]
      · simp [cAdd, cGet, hkk]
    · by_cases hak' : a = k'
      · subst hak'
        have hkk : k ≠ a := fun h => hak h.symm
        simp [cAdd, cGet, hak, hkk]
      · simp [cAdd, cGet, hak, hak', ih]

theorem mem_cKeys_cAdd (m : Counter) (k k' : String) (v : ℤ) :
    k' ∈ cKeys (cAdd m k v) ↔ k' = k ∨ k' ∈ cKeys m := by
  induction m with
  | nil => simp [cAdd, cKeys]
  | cons p m ih =>
    obtain ⟨a, b⟩ := p
    by_cases hak : a = k
    · subst hak
      simp [cAdd, cKeys]
    · simp [cAdd, cKeys, hak] at ih ⊢
      tauto

theorem foldl_cAdd_const_get (xs : List String) (w : ℤ) (m : Counter) (k : String) :
    cGet (xs.foldl (fun acc t => cAdd acc t w) m) k = cGet m k + w * (scount k xs : ℤ) := by
  induction xs generalizing m with
  | nil => simp [scount]
  | cons x xs ih =>
    simp only [List.foldl_cons, scount]
    rw [ih, cGet_cAdd]
    split_ifs with h
    · push_cast
      ring
    · push_cast
      ring

theorem mem_foldl_cAdd_const (xs : List String) (w : ℤ) (m : Counter) (k : String) :
    k ∈ cKeys (xs.foldl (fun acc t => cAdd acc t w) m) ↔ k ∈ cKeys m ∨ k ∈ xs := by
  induction xs generalizing m with
  | nil => simp
  | cons x xs ih =>
    simp only [List.foldl_cons, ih, mem_cKeys_cAdd, List.mem_cons]
    constructor
    · rintro (h | h | h) <;> tauto
    · rintro (h | h | h)
      · tauto
      · subst h; tauto
      · tauto

theorem base_counts_get (tokens : List String) (k : String) :
    cGet (base_counts tokens) k = (scount k tokens : ℤ) := by
  unfold base_counts
  rw [foldl_cAdd_const_get]
  simp [cGet]

theorem add_references_get (rw : ℤ) (refs : List String) (m : Counter) (k : String) :
    cGet (add_references rw refs m) k = cGet m k + rw * (scount k refs : ℤ) := by
  unfold add_references
  rw [foldl_cAdd_const_get]

theorem foldl_bigram_get (bm : List (String × ℚ)) (phrases : List String) (m : Counter) (k : String) :
    cGet (phrases.foldl (fun acc ph => if (qlookup bm ph).isSome then cAdd acc ph 1 else acc) m) k
      = cGet m k + (if (qlookup bm k).isSome then (scount k phrases : ℤ) else 0) := by
  induction phrases generalizing m with
  | nil => simp [scount]
  | cons ph ps ih =>
    simp only [List.foldl_cons, scount]
    rw [ih]
    by_cases hpk : ph = k
    · subst hpk
      by_cases hl : (qlookup bm ph).isSome
      · rw [if_pos hl, if_pos hl, if_pos hl, cGet_cAdd, if_pos rfl]
        push_cast
        rw [if_pos rfl]
        ring
      · rw [if_neg hl, if_neg hl, if_neg hl]
    · by_cases hl : (qlookup bm ph).isSome
      · rw [if_pos hl, cGet_cAdd, if_neg hpk]
        simp [hpk]
      · rw [if_neg hl]
        simp [hpk]

theorem mem_foldl_bigram (bm : List (String × ℚ)) (phrases : List String) (m : Counter) (k : String) :
    k ∈ cKeys (phrases.foldl (fun acc ph => if (qlookup bm ph).isSome then cAdd acc ph 1 else acc) m)
      ↔ k ∈ cKeys m ∨ ((qlookup bm k).isSome ∧ k ∈ phrases) := by
  induction phrases generalizing m with
  | nil => simp
  | cons ph ps ih =>
    simp only [List.foldl_cons, List.mem_cons]
    by_cases hl : (qlookup bm ph).isSome
    · rw [if_pos hl, ih, mem_cKeys_cAdd]
      constructor
      · rintro ((h | h) | h)
        · subst h; tauto
        · tauto
        · tauto
      · rintro (h | ⟨hs, (h | h)⟩)
        · tauto
        · subst h; tauto
        · tauto
    · rw [if_neg hl, ih]
      constructor
      · rintro (h | h) <;> tauto
      · rintro (h | ⟨hs, (h | h)⟩)
        · tauto
        · subst h; exact absurd hs hl
        · tauto

theorem boostStep_eq (bm : List (String × ℚ)) (k : String) (c : ℤ) :
    boostStep bm k c =
      if (qlookup bm (strLower k)).getD 1 ≠ 1 then
        roundHalfEven ((c : ℚ) * (qlookup bm (strLower k)).getD 1)
      else c := rfl

theorem manualStep_eq (manual : List (String × ℚ)) (k : String) (c : ℤ) :
    manualStep manual k c =
      if manualLookup manual k ≠ 0 then
        max 0 (roundHalfEven ((c : ℚ) + manualLookup manual k))
      else c := rfl

/-- Claim C2: in `compute_word_weights`, the running count of every key just
before the boost and manual-adjustment steps is its token frequency, plus
`reference_weight` times its frequency in the reference sequence, plus its
adjacent-token bigram occurrence count when (and only when) it is a key of
the boost map; and the key set of the returned weights and stats is exactly
the keys touched by those three sources together with every key of the
manual-adjustment mapping. -/
theorem C2_theorem (tokens refs : List String) (bm manual : List (String × ℚ))
    (rw : ℤ) (k : String) :
    cGet (pre_counts tokens refs bm rw) k
      = (scount k tokens : ℤ) + rw * (scount k refs : ℤ)
        + (if (qlookup bm k).isSome then (scount k (bigram_phrases tokens) : ℤ) else 0)
    ∧ (k ∈ all_keys tokens refs bm rw manual
        ↔ k ∈ tokens ∨ k ∈ refs
          ∨ ((qlookup bm k).isSome ∧ k ∈ bigram_phrases tokens)
          ∨ k ∈ manual.map Prod.fst) := by
  constructor
  · unfold pre_counts add_bigrams
    rw [foldl_bigram_get, add_references_get, base_counts_get]
  · unfold all_keys pre_counts add_bigrams add_references base_counts
    rw [List.mem_append, mem_foldl_bigram, mem_foldl_cAdd_const, mem_foldl_cAdd_const]
    simp only [cKeys, List.map_nil, List.not_mem_nil, false_or]
    tauto

/-- Claim C3: the manual adjustment is looked up by the exact key first and
then by the lowercased key; a nonzero adjustment is added to the current
value, rounded to the nearest integer and floored at zero, so the result of
the manual-adjustment step is never negative; in particular a key with base
count 1, no boost, and manual adjustment -10 ends with final count 0. -/
theorem C3_theorem :
    (∀ rw : ℤ, final_count ["love"] [] [] rw [("love", -10)] "love" = 0)
  ∧ (∀ (manual : List (String × ℚ)) (k : String) (v : ℚ),
      qlookup manual k = some v → manualLookup manual k = v)
  ∧ (∀ (manual : List (String × ℚ)) (k : String),
      qlookup manual k = none →
        manualLookup manual k = (qlookup manual (strLower k)).getD 0)
  ∧ (∀ (manual : List (String × ℚ)) (k : String) (c : ℤ),
      manualLookup manual k ≠ 0 →
        manualStep manual k c = max 0 (roundHalfEven ((c : ℚ) + manualLookup manual k))
          ∧ 0 ≤ manualStep manual k c) := by
  refine ⟨?_, ?_, ?_, ?_⟩
  · intro rw
    show manualStep [("love", -10)] "love"
      (boostStep [] "love" (cGet (pre_counts ["love"] [] [] rw) "love")) = 0
    have h1 : boostStep [] "love" (cGet (pre_counts ["love"] [] [] rw) "love") = 1 := rfl
    rw [h1, manualStep_eq]
    rw [if_pos (show manualLookup [("love", -10)] "love" ≠ 0 by decide)]
    have h2 : manualLookup [("love", (-10 : ℚ))] "love" = -10 := rfl
    rw [h2]
    have h3 : ((1 : ℤ) : ℚ) + (-10 : ℚ) = ((-9 : ℤ) : ℚ) := by norm_num
    rw [h3, roundHalfEven_intCast]
    decide
  · intro manual k v h
    unfold manualLookup
    rw [h]
    rfl
  · intro manual k h
    unfold manualLookup
    rw [h]
    rfl
  · intro manual k c h
    refine ⟨by rw [manualStep_eq, if_pos h], ?_⟩
    rw [manualStep_eq, if_pos h]
    exact le_max_left 0 _

/-- Witness for C3 at concrete inputs: the exact-key lookup, the
lowercased-key fallback, and the nonnegative floored adjustment. -/
theorem C3_witness :
    qlookup [("love", (-10 : ℚ))] "love" = some (-10)
  ∧ manualLookup [("love", (-10 : ℚ))] "love" = -10
  ∧ qlookup [("love", (3 : ℚ))] "Love" = none
  ∧ manualLookup [("love", (3 : ℚ))] "Love" = 3
  ∧ manualLookup [("love", (-10 : ℚ))] "love" ≠ 0
  ∧ 0 ≤ manualStep [("love", (-10 : ℚ))] "love" 1 := by
  refine ⟨by decide, C3_theorem.2.1 _ _ _ (by decide), by decide, ?_, by decide,
    (C3_theorem.2.2.2 [("love", (-10 : ℚ))] "love" 1 (by decide)).2⟩
  have h := C3_theorem.2.2.1 [("love", (3 : ℚ))] "Love" (by decide)
  rw [h]
  decide

/-- Claim C4: the boost multiplier is looked up in the boost map by the
lowercased key with default 1.0 and is applied (multiply then round to
nearest, ties to even) exactly when it is not 1.0; in particular tokens
["grace","grace"] with boost map {"grace": 2.0}, no references and no
manual adjustments yield final count 4 for "grace" whatever the reference
weight. -/
theorem C4_theorem :
    (∀ rw : ℤ, final_count ["grace", "grace"] [] [("grace", 2)] rw [] "grace" = 4)
  ∧ (∀ (tokens refs : List String) (bm manual : List (String × ℚ)) (rw : ℤ) (k : String),
      (qlookup bm (strLower k)).getD 1 = 1 →
        final_count tokens refs bm rw manual k
          = manualStep manual k (cGet (pre_counts tokens refs bm rw) k))
  ∧ (∀ (tokens refs : List String) (bm manual : List (String × ℚ)) (rw : ℤ) (k : String),
      (qlookup bm (strLower k)).getD 1 ≠ 1 →
        final_count tokens refs bm rw manual k
          = manualStep manual k (roundHalfEven
              ((cGet (pre_counts tokens refs bm rw) k : ℚ)
                * (qlookup bm (strLower k)).getD 1))) := by
  refine ⟨?_, ?_, ?_⟩
  · intro rw
    show manualStep [] "grace"
      (boostStep [("grace", 2)] "grace"
        (cGet (pre_counts ["grace", "grace"] [] [("grace", 2)] rw) "grace")) = 4
    have h1 : cGet (pre_counts ["grace", "grace"] [] [("grace", 2)] rw) "grace" = 2 := rfl
    rw [h1, boostStep_eq]
    rw [if_pos (show (qlookup [("grace", (2 : ℚ))] (strLower "grace")).getD 1 ≠ 1 by decide)]
    have h2 : (qlookup [("grace", (2 : ℚ))] (strLower "grace")).getD 1 = 2 := by decide
    rw [h2]
    have h3 : ((2 : ℤ) : ℚ) * (2 : ℚ) = ((4 : ℤ) : ℚ) := by norm_num
    rw [h3, roundHalfEven_intCast]
    decide
  · intro tokens refs bm manual rw k h
    unfold final_count
    rw [boostStep_eq, if_neg (not_not_intro h)]
  · intro tokens refs bm manual rw k h
    unfold final_count
    rw [boostStep_eq, if_pos h]

/-- Witness for C4 at concrete inputs: the skipped boost when the
multiplier defaults to 1 and the applied boost when it is 2. -/
theorem C4_witness :
    (qlookup [] (strLower "x")).getD 1 = (1 : ℚ)
  ∧ final_count ["x"] [] [] 0 [] "x" = manualStep [] "x" (cGet (pre_counts ["x"] [] [] 0) "x")
  ∧ (qlookup [("grace", (2 : ℚ))] (strLower "grace")).getD 1 ≠ 1
  ∧ final_count ["grace"] [] [("grace", 2)] 0 [] "grace"
      = manualStep [] "grace" (roundHalfEven
          ((cGet (pre_counts ["grace"] [] [("grace", 2)] 0) "grace" : ℚ)
            * (qlookup [("grace", (2 : ℚ))] (strLower "grace")).getD 1)) := by
  exact ⟨by decide, C4_theorem.2.1 _ _ _ _ _ _ (by decide), by decide,
    C4_theorem.2.2 _ _ _ _ _ _ (by decide)⟩

theorem isLower_not_isDigit (c : Char) (h : c.isLower = true) : c.isDigit = false := by
  simp only [Char.isLower, Bool.and_eq_true, decide_eq_true_eq, ge_iff_le] at h
  obtain ⟨h1, -⟩ := h
  simp only [Char.isDigit]
  rw [Bool.and_eq_false_iff]
  right
  simp only [decide_eq_false_iff_not]
  intro hle
  rw [UInt32.le_def, BitVec.le_def] at h1 hle
  have h97 : (97 : UInt32).toBitVec.toNat = 97 := rfl
  have h57 : (57 : UInt32).toBitVec.toNat = 57 := rfl
  rw [h97] at h1
  rw [h57] at hle
  omega

theorem wordPattern_head (cs : List Char) (h : wordPattern cs = true) :
    ∃ c cs', cs = c :: cs' ∧ c.isLower = true := by
  cases cs with
  | nil => exact absurd h (by decide)
  | cons c cs' =>
    refine ⟨c, cs', rfl, ?_⟩
    simp only [wordPattern, Bool.and_eq_true] at h
    exact h.1

/-- Claim C1 counterexample: the key "John 3:16!" (punctuation-bearing, a
scripture reference only as a proper substring) survives the step-1 filter
of `normalize_items`, although it is neither a whole-string reference match
nor letters-and-single-spaces — the reference check is a substring search,
not a whole-string match. -/
theorem C1_counterexample :
    ("John 3:16!", (1 : ℤ)) ∈ filteredItems [("John 3:16!", 1)]
  ∧ specWholeStringRef "John 3:16!" = false
  ∧ lettersSpaces "John 3:16!" = false := by decide

/-- Claim C1 as amended: a key of the weight mapping survives the step-1
filter of `normalize_items` exactly when it contains a scripture-reference
match anywhere as a substring (`is_scripture_ref` is a regex search, not a
whole-string match) or the whole key is letters and single interior spaces
(this check alone is a whole-string match). -/
theorem C1_theorem (items : List (String × ℤ)) (k : String) (v : ℤ) :
    (k, v) ∈ filteredItems items
      ↔ (k, v) ∈ items ∧ (is_scripture_ref k = true ∨ lettersSpaces k = true) := by
  unfold filteredItems
  rw [List.mem_filter]
  simp [normKeep]

/-- Claim C8: with reference detection enabled, the detector applied to
"See John 3:16 and 1 Corinthians 13:4-7." returns the normalized references
"John 3:16" and "1 Corinthians 13:4-7", in that order. -/
theorem C8_theorem :
    extract_references true "See John 3:16 and 1 Corinthians 13:4-7."
      = ["John 3:16", "1 Corinthians 13:4-7"] := by decide

/-- Claim C9: with the default stopword set, keep-short allowlist and
minimum token length 3, tokenizing "love123joy" yields exactly
["love", "joy"] (the all-digit fragment "123" is discarded), and in
general no output token of the tokenizer consists of digits only. -/
theorem C9_theorem :
    tokenize_text "love123joy" default_stopwords KEEP_SHORT 3 = ["love", "joy"]
  ∧ ∀ (body : String) (stop keep : List String) (minLength : ℕ) (t : String),
      t ∈ tokenize_text body stop keep minLength → t.data.all Char.isDigit = false := by
  constructor
  · decide
  · intro body stop keep ml t ht
    unfold tokenize_text at ht
    simp only [List.mem_filterMap] at ht
    obtain ⟨cs, -, hclean⟩ := ht
    simp only [cleanToken] at hclean
    split_ifs at hclean with h1 h2 h3 h4
    obtain rfl : String.mk (stripEnds cs) = t := Option.some.inj hclean
    have hwp : wordPattern (stripEnds cs) = true := by
      simpa using h3
    obtain ⟨c, cs', heq, hlow⟩ := wordPattern_head _ hwp
    rw [show (String.mk (stripEnds cs)).data = stripEnds cs from rfl, heq]
    simp [isLower_not_isDigit c hlow]

/-- Witness for C9: the token "love" is in the output for the concrete
input and is not all digits. -/
theorem C9_witness :
    ("love" ∈ tokenize_text "love123joy" default_stopwords KEEP_SHORT 3)
  ∧ "love".data.all Char.isDigit = false :=
  ⟨by decide, C9_theorem.2 "love123joy" default_stopwords KEEP_SHORT 3 "love" (by decide)⟩

/-- Claim C10: the effective stopword set never contains a removed word:
removal is applied after the group union and the extra additions, so any
word of `remove_stopwords` (trimmed and lowercased, when nonblank) is
absent from the result. -/
theorem C10_theorem (enabled extra remove : List String) (w : String)
    (hw : w ∈ remove) (hnb : (pyStrip w).isEmpty = false) :
    strLower (pyStrip w) ∉ stopwords_of enabled extra remove := by
  intro hmem
  unfold stopwords_of at hmem
  simp only [List.mem_filter] at hmem
  obtain ⟨-, hno⟩ := hmem
  rw [Bool.not_eq_true'] at hno
  have hin : strLower (pyStrip w)
      ∈ (remove.filter (fun x => !(pyStrip x).isEmpty)).map (fun x => strLower (pyStrip x)) :=
    List.mem_map.mpr ⟨w, List.mem_filter.mpr ⟨hw, by simp [hnb]⟩, rfl⟩
  have hcontains := List.elem_eq_true_of_mem hin
  rw [List.contains] at hno
  rw [hno] at hcontains
  exact Bool.false_ne_true hcontains

/-- Witness for C10: the word "the" is in the `base` group, and removing it
makes it a non-stopword even with the group enabled. -/
theorem C10_witness :
    ("the" ∈ ["the"]) ∧ (pyStrip "the").isEmpty = false
  ∧ strLower (pyStrip "the") ∉ stopwords_of ["base"] [] ["the"] :=
  ⟨by decide, by decide, C10_theorem ["base"] [] ["the"] "the" (by decide) (by decide)⟩

/-- Claim C5 counterexample: with the fallback taken (no strings collected,
collect-all off, "plaintext" not a resolved key), the payload
`{"db": []}` — the legacy structure absent because "db" is an empty list —
makes `extract_text_from_json_payload` raise an IndexError
(`payload.get("db", [{}])[0]` on an empty list) instead of yielding no
text. -/
theorem C5_counterexample :
    extract_text_from_json_payload (.obj (.cons "db" (.arr .nil) .nil)) ["body"] false = .err
  ∧ iterJson ["body"] false (.obj (.cons "db" (.arr .nil) .nil)) false = []
  ∧ (["body"].contains "plaintext") = false := by decide

/-- Claim C5 as amended: whenever the legacy fallback is taken, a payload
whose legacy structure is absent by way of a missing key — no "db" key, or
a first db entry (a mapping) without "data", or a "data" mapping without
"posts" — yields the empty string rather than an error; the
empty-"db"-list case, by contrast, raises (see the counterexample). -/
theorem C5_theorem (fields : JObj) (keys : List String)
    (hstr : iterJson keys false (.obj fields) false = [])
    (hpk : keys.contains "plaintext" = false)
    (hmissing : lookupJO fields "db" = none
      ∨ (∃ d rest, lookupJO fields "db" = some (.arr (.cons (.obj d) rest))
          ∧ (lookupJO d "data" = none
            ∨ ∃ dd, lookupJO d "data" = some (.obj dd) ∧ lookupJO dd "posts" = none))) :
    extract_text_from_json_payload (.obj fields) keys false = .ok "" := by
  simp only [extract_text_from_json_payload, hstr, hpk, List.isEmpty_nil, Bool.not_false,
    Bool.and_self, if_true]
  rcases hmissing with hnone | ⟨d, rest, hdb, hdata⟩
  · simp [extract_posts, pyGet, hnone, pyIndex0, postsPlaintexts, postsPlaintextsList,
      pyJoinJson, asStrs, joinSep, lookupJO, Option.getD, List.filter]
  · rcases hdata with hdnone | ⟨dd, hdd, hpos⟩
    · simp [extract_posts, pyGet, hdb, pyIndex0, hdnone, postsPlaintexts,
        postsPlaintextsList, pyJoinJson, asStrs, joinSep, lookupJO, Option.getD, List.filter]
    · simp [extract_posts, pyGet, hdb, pyIndex0, hdd, hpos, postsPlaintexts,
        postsPlaintextsList, pyJoinJson, asStrs, joinSep, lookupJO, Option.getD, List.filter]

/-- Witness for C5: the empty-mapping payload, with configured key "body",
takes the fallback (no strings, collect-all off, "plaintext" not a key),
has no "db" key, and yields the empty string. -/
theorem C5_witness :
    iterJson ["body"] false (.obj JObj.nil) false = []
  ∧ (["body"].contains "plaintext") = false
  ∧ lookupJO JObj.nil "db" = none
  ∧ extract_text_from_json_payload (.obj JObj.nil) ["body"] false = .ok "" :=
  ⟨by decide, by decide, rfl, C5_theorem JObj.nil ["body"] (by decide) (by decide) (Or.inl rfl)⟩

/-- Claim C6 counterexample: with no configured keys and collect-all false,
the resolved key set is the default set, which contains "plaintext"; on the
legacy payload the primary key-matching pass itself collects
"hello world", so the claimed fallback path is not the one taken (the
fallback requires zero collected strings and "plaintext" not resolved). -/
theorem C6_counterexample :
    iterJson (resolved_json_keys false none) false ghostPayload false = ["hello world"]
  ∧ (resolved_json_keys false none).contains "plaintext" = true := by decide

/-- Claim C6 as amended: with no configured JSON keys and collect-all
false, `extract_text_from_json_payload` on the legacy Ghost payload yields
"hello world" — via the primary key-matching pass (whose resolved default
keys include "plaintext"), not via the legacy fallback. -/
theorem C6_theorem :
    extract_text_from_json_payload ghostPayload (resolved_json_keys false none) false
      = .ok "hello world"
  ∧ iterJson (resolved_json_keys false none) false ghostPayload false = ["hello world"] := by
  decide

theorem truncToZero_intCast (n : ℤ) : truncToZero ((n : ℤ) : ℝ) = n := by
  unfold truncToZero
  split_ifs with h
  · exact Int.ceil_intCast n
  · exact Int.floor_intCast n

theorem truncToZero_mono {x y : ℝ} (h : x ≤ y) : truncToZero x ≤ truncToZero y := by
  by_cases hx : x < 0 <;> by_cases hy : y < 0
  · simp only [truncToZero, if_pos hx, if_pos hy]
    exact Int.ceil_le_ceil h
  · simp only [truncToZero, if_pos hx, if_neg hy]
    have h1 : ⌈x⌉ ≤ 0 := Int.ceil_le.mpr (by exact_mod_cast le_of_lt hx)
    have h2 : (0 : ℤ) ≤ ⌊y⌋ := Int.floor_nonneg.mpr (not_lt.mp hy)
    exact le_trans h1 h2
  · exact absurd (lt_of_le_of_lt h hy) hx
  · simp only [truncToZero, if_neg hx, if_neg hy]
    exact Int.floor_le_floor h

theorem sizeAt_antitone (minFont maxFont : ℤ) (p : ℝ) (total i j : ℕ)
    (hp : 0 < p) (hmf : minFont ≤ maxFont) (hij : i ≤ j) :
    sizeAt minFont maxFont p total j ≤ sizeAt minFont maxFont p total i := by
  unfold sizeAt
  apply truncToZero_mono
  have hD : (0 : ℝ) < ((max (total - 1) 1 : ℕ) : ℝ) := by
    have h1 : (0 : ℕ) < max (total - 1) 1 := lt_of_lt_of_le Nat.zero_lt_one (le_max_right _ _)
    exact_mod_cast h1
  have hfr : ((i : ℕ) : ℝ) / ((max (total - 1) 1 : ℕ) : ℝ)
      ≤ ((j : ℕ) : ℝ) / ((max (total - 1) 1 : ℕ) : ℝ) :=
    (div_le_div_iff_of_pos_right hD).mpr (Nat.cast_le.mpr hij)
  have h0 : (0 : ℝ) ≤ ((i : ℕ) : ℝ) / ((max (total - 1) 1 : ℕ) : ℝ) :=
    div_nonneg (Nat.cast_nonneg i) hD.le
  have hpow := Real.rpow_le_rpow h0 hfr hp.le
  apply add_le_add_left
  apply mul_le_mul_of_nonneg_left (sub_le_sub_left hpow 1)
  have : ((minFont : ℤ) : ℝ) ≤ ((maxFont : ℤ) : ℝ) := Int.cast_le.mpr hmf
  linarith

theorem normalize_items_getElem? (items : List (String × ℤ)) (maxItems : ℕ)
    (minFont maxFont : ℤ) (p : ℝ) (breaks : List (ℚ × String)) (i : ℕ) :
    (normalize_items items maxItems minFont maxFont p breaks)[i]?
      = (((sortDesc (filteredItems items)).take maxItems)[i]?).map
          (fun w => RenderWord.mk w.1
            (sizeAt minFont maxFont p ((sortDesc (filteredItems items)).take maxItems).length i)
            (weight_for i ((sortDesc (filteredItems items)).take maxItems).length breaks)) := by
  unfold normalize_items
  rw [List.getElem?_map, List.getElem?_enum]
  cases ((sortDesc (filteredItems items)).take maxItems)[i]? <;> rfl

/-- Claim C7: the render list of `normalize_items` has non-increasing font
sizes with rank whenever the curve power is positive and the minimum font
size is at most the maximum: for output positions i ≤ j, the size at j is
at most the size at i, and the size at i is the truncated power-law curve
`sizeAt` evaluated at rank i and the output length. -/
theorem C7_theorem (items : List (String × ℤ)) (maxItems : ℕ) (minFont maxFont : ℤ)
    (curvePower : ℝ) (breaks : List (ℚ × String))
    (hp : 0 < curvePower) (hmf : minFont ≤ maxFont) (i j : ℕ) (hij : i ≤ j)
    (wi wj : RenderWord)
    (hi : (normalize_items items maxItems minFont maxFont curvePower breaks)[i]? = some wi)
    (hj : (normalize_items items maxItems minFont maxFont curvePower breaks)[j]? = some wj) :
    wj.size ≤ wi.size
  ∧ wi.size = sizeAt minFont maxFont curvePower
      (normalize_items items maxItems minFont maxFont curvePower breaks).length i := by
  have hlen : (normalize_items items maxItems minFont maxFont curvePower breaks).length
      = ((sortDesc (filteredItems items)).take maxItems).length := by
    unfold normalize_items
    rw [List.length_map, List.enum_length]
  rw [normalize_items_getElem?] at hi hj
  obtain ⟨ai, hai, hfi⟩ := Option.map_eq_some'.mp hi
  obtain ⟨aj, haj, hfj⟩ := Option.map_eq_some'.mp hj
  constructor
  · rw [← hfi, ← hfj]
    exact sizeAt_antitone minFont maxFont curvePower _ i j hp hmf hij
  · rw [← hfi, hlen]

/-- Witness for C7 at a concrete configuration (curve power 1, fonts 9-180,
two kept items): the two output records and the size inequality. -/
theorem C7_witness :
    (0 : ℝ) < 1 ∧ (9 : ℤ) ≤ 180 ∧ (0 : ℕ) ≤ 1
  ∧ (normalize_items [("god", 5), ("love", 3)] 2 9 180 1 [])[0]?
      = some { text := "god", size := 180, weight := "500" }
  ∧ (normalize_items [("god", 5), ("love", 3)] 2 9 180 1 [])[1]?
      = some { text := "love", size := 9, weight := "500" }
  ∧ RenderWord.size { text := "love", size := 9, weight := "500" }
      ≤ RenderWord.size { text := "god", size := 180, weight := "500" } := by
  have s0 : sizeAt 9 180 1 2 0 = 180 := by
    unfold sizeAt truncToZero
    rw [Real.rpow_one]
    norm_num
  have s1 : sizeAt 9 180 1 2 1 = 9 := by
    unfold sizeAt truncToZero
    rw [Real.rpow_one]
    norm_num
  have e0 : (normalize_items [("god", 5), ("love", 3)] 2 9 180 1 [])[0]?
      = some { text := "god", size := sizeAt 9 180 1 2 0, weight := "500" } := rfl
  have e1 : (normalize_items [("god", 5), ("love", 3)] 2 9 180 1 [])[1]?
      = some { text := "love", size := sizeAt 9 180 1 2 1, weight := "500" } := rfl
  rw [s0] at e0
  rw [s1] at e1
  refine ⟨by norm_num, by norm_num, by norm_num, e0, e1, ?_⟩
  exact (C7_theorem [("god", 5), ("love", 3)] 2 9 180 1 [] (by norm_num) (by norm_num)
    0 1 (by norm_num) _ _ e0 e1).1
